import Mathlib

/-!
Verification of the TarTrackers pothole-detection core against its
natural-language specification.

The development is a shallow embedding of the four core components
(`gps-tracker.ts`, `supabase.ts` DetectionSmoother, `pothole-fingerprint.ts`,
`use-pothole-worker.ts` usePotholeSession) into Lean. JavaScript numbers are
modelled as exact rationals (`ℚ`); the trigonometric helpers
`Math.cos(x * Math.PI / 180)` and `Math.sin(x * Math.PI / 180)` are modelled
by abstract function parameters `cosDeg sinDeg : ℚ → ℚ` (every occurrence of
trig in the sources has a degree argument of this shape), so theorems
quantify over them. JavaScript `Map`s are modelled as association lists in
insertion order (set replaces in place, otherwise appends, matching `Map`
iteration semantics). Division in `ℚ` is total with `x / 0 = 0`; where a
reachable division by zero produces `NaN` in JavaScript (the degenerate
GPS interpolation bracket), the embedding makes the non-finite result
explicit with an `Option` instead.
-/

namespace TarTrackers

set_option maxRecDepth 100000

/-! ### Shared data model

`Detection` as used by all three trackers (`bbox` = `[x, y, w, h]` in pixel
space, top-left origin). The `class` field is renamed `cls` (`class` is a
Lean keyword). -/

structure BBox where
  x : ℚ
  y : ℚ
  w : ℚ
  h : ℚ
deriving DecidableEq, Repr

structure Detection where
  bbox : BBox
  confidence : ℚ
  cls : String
deriving DecidableEq, Repr

/-! ### GPS module — `src/src/lib/gps-tracker.ts` -/

/-- `GPSPoint` of `gps-tracker.ts`: `speed`/`heading` may be `null` (`none`). -/
structure GPSPoint where
  lat : ℚ
  lng : ℚ
  accuracy : ℚ
  speed : Option ℚ
  heading : Option ℚ
  timestamp : ℚ
deriving DecidableEq, Repr

/-- Scalar Kalman filter state (`class KalmanFilter`): process variance `q`,
measurement variance `r`, covariance `p`, value `x`, gain `k`. -/
structure KalmanFilter where
  q : ℚ
  r : ℚ
  p : ℚ
  x : ℚ
  k : ℚ
deriving DecidableEq, Repr

/-- Constructor defaults: `q = 0.00001`, `r = 0.01`, `p = 1.0`, `x = 0`, `k = 0`. -/
def KalmanFilter.init : KalmanFilter := ⟨1/100000, 1/100, 1, 0, 0⟩

/-- `KalmanFilter.filter(measurement)`: predict `p += q`; gain
`k = p/(p+r)`; correct `x += k*(m-x)`; `p = (1-k)*p`. Returns the updated
filter (the source returns `this.x`, recoverable as `.x`). -/
def KalmanFilter.filter (f : KalmanFilter) (m : ℚ) : KalmanFilter :=
  let p1 := f.p + f.q
  let k := p1 / (p1 + f.r)
  let x := f.x + k * (m - f.x)
  let p2 := (1 - k) * p1
  { f with p := p2, x := x, k := k }

/-- `filter(m)` applied `n` times to a freshly constructed filter. -/
def iterateFilter : ℕ → ℚ → KalmanFilter
  | 0, _ => KalmanFilter.init
  | n + 1, m => (iterateFilter n m).filter m

/-- `class GPSTracker` state: bounded buffer (max 10), one Kalman filter per
axis, last filtered position. -/
structure GPSTracker where
  buffer : List GPSPoint
  latFilter : KalmanFilter
  lngFilter : KalmanFilter
  lastPosition : Option GPSPoint
deriving DecidableEq, Repr

def GPSTracker.init : GPSTracker := ⟨[], KalmanFilter.init, KalmanFilter.init, none⟩

/-- `GPSTracker.reset()`: clears the buffer and replaces both filters with
fresh ones. -/
def GPSTracker.reset (_t : GPSTracker) : GPSTracker := GPSTracker.init

/-- `GPSTracker.addPoint(point)`: filter lat/lng, push the filtered point,
evict the oldest when the buffer exceeds `maxBufferSize = 10`. -/
def GPSTracker.addPoint (t : GPSTracker) (point : GPSPoint) : GPSTracker :=
  let latF := t.latFilter.filter point.lat
  let lngF := t.lngFilter.filter point.lng
  let filtered : GPSPoint := { point with lat := latF.x, lng := lngF.x }
  let buf := t.buffer ++ [filtered]
  let buf2 := if buf.length > 10 then buf.tail else buf
  ⟨buf2, latF, lngF, some filtered⟩

/-- `GPSTracker.getCurrentPosition(timestamp?)`. `Date.now()` is passed
explicitly as `now`. `cosDeg`/`sinDeg` model `Math.cos(x*Math.PI/180)` /
`Math.sin(x*Math.PI/180)`. -/
def GPSTracker.getCurrentPosition (cosDeg sinDeg : ℚ → ℚ) (t : GPSTracker)
    (now : ℚ) : Option GPSPoint :=
  match t.buffer with
  | [] => none
  | [p] => some p
  | p :: q :: rest =>
    let latest := (p :: q :: rest).getLastD p
    if now - latest.timestamp < 2000 then some latest
    else
      match latest.speed, latest.heading with
      | some sp, some hd =>
        if sp > 1/2 then
          let timeDelta := (now - latest.timestamp) / 1000
          let distanceMoved := sp * timeDelta
          if timeDelta > 3 then some latest
          else
            let latChange := distanceMoved * cosDeg hd / 111320
            let lngChange := distanceMoved * sinDeg hd / (111320 * cosDeg latest.lat)
            some { lat := latest.lat + latChange
                   lng := latest.lng + lngChange
                   accuracy := latest.accuracy * (3/2)
                   speed := some sp
                   heading := some hd
                   timestamp := now }
        else some latest
      | _, _ => some latest

/-- Result type of `getPositionAt`. In JavaScript the interpolation ratio is
`(timestamp - before.timestamp) / totalTime`; when `totalTime = 0` (bracket
of identical timestamps, which forces the numerator to 0 as well) this is
`0/0 = NaN` and propagates into `lat`/`lng`/`speed`/`heading`. The embedding
represents such a non-finite number as `none` in the inner `Option ℚ`; for
`speed`/`heading` the outer `Option` is JavaScript `null`. -/
structure InterpPoint where
  lat : Option ℚ
  lng : Option ℚ
  accuracy : ℚ
  speed : Option (Option ℚ)
  heading : Option (Option ℚ)
  timestamp : ℚ
deriving DecidableEq, Repr

/-- A finite `GPSPoint` viewed as an `InterpPoint`. -/
def GPSPoint.toInterp (p : GPSPoint) : InterpPoint :=
  ⟨some p.lat, some p.lng, p.accuracy, p.speed.map some, p.heading.map some, p.timestamp⟩

/-- The bracket-finding loop of `getPositionAt`: first index `i` with
`buffer[i].timestamp ≤ timestamp ≤ buffer[i+1].timestamp`. -/
def findBracket (t : ℚ) : List GPSPoint → Option (GPSPoint × GPSPoint)
  | a :: b :: rest =>
    if a.timestamp ≤ t ∧ t ≤ b.timestamp then some (a, b)
    else findBracket t (b :: rest)
  | _ => none

/-- `GPSTracker.interpolateHeading(h1, h2, ratio)`, over a possibly non-finite
ratio. When `ratio` is `NaN`, `h1 + diff * NaN = NaN` and both normalization
comparisons (`NaN < 0`, `NaN >= 360`) are false, so the result stays `NaN`. -/
def interpolateHeading (h1 h2 : ℚ) (ratio : Option ℚ) : Option ℚ :=
  let diff0 := h2 - h1
  let diff1 := if diff0 > 180 then diff0 - 360 else diff0
  let diff2 := if diff1 < -180 then diff1 + 360 else diff1
  match ratio with
  | none => none
  | some r =>
    let res0 := h1 + diff2 * r
    let res1 := if res0 < 0 then res0 + 360 else res0
    let res2 := if res1 ≥ 360 then res1 - 360 else res1
    some res2

/-- `GPSTracker.getPositionAt(timestamp)`: bracket search, fallback to
`getCurrentPosition` past the newest sample, `buffer[0]` before all samples,
and linear interpolation inside a bracket. The ratio is `none` (non-finite)
exactly when the bracketing timestamps coincide. -/
def GPSTracker.getPositionAt (cosDeg sinDeg : ℚ → ℚ) (t : GPSTracker)
    (timestamp : ℚ) : Option InterpPoint :=
  match t.buffer with
  | [] => none
  | [p] => some p.toInterp
  | p :: q :: rest =>
    match findBracket timestamp (p :: q :: rest) with
    | none =>
      let latest := (p :: q :: rest).getLastD p
      if timestamp > latest.timestamp then
        (GPSTracker.getCurrentPosition cosDeg sinDeg t timestamp).map GPSPoint.toInterp
      else some p.toInterp
    | some (before, after) =>
      let totalTime := after.timestamp - before.timestamp
      let ratio : Option ℚ :=
        if totalTime = 0 then none
        else some ((timestamp - before.timestamp) / totalTime)
      some
        { lat := ratio.map (fun r => before.lat + (after.lat - before.lat) * r)
          lng := ratio.map (fun r => before.lng + (after.lng - before.lng) * r)
          accuracy := max before.accuracy after.accuracy
          speed :=
            match before.speed, after.speed with
            | some bs, some asp => some (ratio.map (fun r => bs + (asp - bs) * r))
            | _, _ => before.speed.map some
          heading :=
            match before.heading, after.heading with
            | some bh, some ah => some (interpolateHeading bh ah ratio)
            | _, _ => before.heading.map some
          timestamp := timestamp }

/-! ### String formatting helpers

`Number.prototype.toFixed(d)` per ECMAScript: for negative input the sign is
emitted and the absolute value formatted; the integer `n` closest to
`|x|·10^d` is chosen, ties picking the larger. -/

/-- Left-pad a digit string with zeros to length `n`. -/
def padZeros (s : String) (n : ℕ) : String :=
  String.mk (List.replicate (n - s.length) '0') ++ s

/-- `x.toFixed(digits)` for a rational `x`. -/
def toFixedQ (digits : ℕ) (x : ℚ) : String :=
  let sign := if x < 0 then "-" else ""
  let n : ℤ := ⌊|x| * (10 : ℚ) ^ digits + 1/2⌋
  let m := n.toNat
  let ip := m / 10 ^ digits
  let fp := m % 10 ^ digits
  if digits = 0 then sign ++ toString ip
  else sign ++ toString ip ++ "." ++ padZeros (toString fp) digits

/-! ### Geospatial helpers — `src/lib/geospatial.ts` (file present as
`src/unnamed/part_006`) -/

def METERS_PER_DEG_LAT : ℚ := 111320

/-- `metersPerDegLon(latDeg) = 111320 * Math.cos(latDeg * Math.PI / 180)`. -/
def metersPerDegLon (cosDeg : ℚ → ℚ) (latDeg : ℚ) : ℚ :=
  METERS_PER_DEG_LAT * cosDeg latDeg

/-- `quantizeCell(lat, lon, meters)`: floor-divide by the angular steps and
build the string key `latIdx:lonIdx:meters`. -/
def quantizeCell (cosDeg : ℚ → ℚ) (lat lon meters : ℚ) : String :=
  let latStep := meters / METERS_PER_DEG_LAT
  let lonStep := meters / metersPerDegLon cosDeg lat
  let latIdx : ℤ := ⌊lat / latStep⌋
  let lonIdx : ℤ := ⌊lon / lonStep⌋
  toString latIdx ++ ":" ++ toString lonIdx ++ ":" ++ toString meters

/-! ### Session deduplicator — `usePotholeSession` in
`src/src/hooks/use-pothole-worker.ts`

The TTL caches are JavaScript `Map`s: association lists in insertion order;
`set` overwrites in place, otherwise appends. -/

/-- A `Map<string, number>` of key → timestamp. -/
abbrev TSMap := List (String × ℚ)

/-- `Map.get`. -/
def mapFind : TSMap → String → Option ℚ
  | [], _ => none
  | (k, v) :: rest, key => if k = key then some v else mapFind rest key

/-- `Map.set` (overwrite in place, else append). -/
def mapSet : TSMap → String → ℚ → TSMap
  | [], key, v => [(key, v)]
  | (k, w) :: rest, key, v =>
    if k = key then (k, v) :: rest else (k, w) :: mapSet rest key v

/-- One pruning pass: drop entries with `now - t > ttl`. -/
def prunePass (ttl now : ℚ) (m : TSMap) : TSMap :=
  m.filter fun e => decide (¬ now - e.2 > ttl)

/-- The memory bound in `pruneCaches`: when the map exceeds `cap` entries,
keep only the last `keep` (`new Map([...entries].slice(-keep))`). -/
def capMap (cap keep : ℕ) (m : TSMap) : TSMap :=
  if m.length > cap then m.drop (m.length - keep) else m

/-- `PotholeReport` of the session hook. -/
structure PotholeReport where
  id : String
  lat : ℚ
  lon : ℚ
  ts : ℚ
deriving DecidableEq, Repr

/-- The hook's options after `??`-defaulting (`usePotholeSession` resolves
every optional field up front; the embedding models the resolved values). -/
structure SessionOpts where
  centerGateMin : ℚ
  centerGateMax : ℚ
  centerGateEnabled : Bool
  cellMeters : ℚ
  shortTTLms : ℚ
  sessionTTLms : ℚ
  bypassFilters : Bool
deriving DecidableEq, Repr

/-- The defaults: 0.35, 0.65, gate on, 12 m cells, 30 s / 15 min TTLs,
bypass off. -/
def defaultOpts : SessionOpts :=
  ⟨35/100, 65/100, true, 12, 30000, 900000, false⟩

/-- Session state held in the hook's refs. -/
structure SessionState where
  shortCache : TSMap
  sessionCache : TSMap
  reports : List PotholeReport
deriving DecidableEq, Repr

def SessionState.init : SessionState := ⟨[], [], []⟩

/-- `isCenterGated(bbox, w, h)`. -/
def isCenterGated (opts : SessionOpts) (b : BBox) (w h : ℚ) : Bool :=
  let nx := (b.x + b.w / 2) / w
  let ny := (b.y + b.h / 2) / h
  decide (opts.centerGateMin ≤ nx ∧ nx ≤ opts.centerGateMax ∧
    opts.centerGateMin ≤ ny ∧ ny ≤ opts.centerGateMax)

/-- Loop-carried state of the `registerDetections` detection loop. -/
structure RegAcc where
  counted : List String
  shortCache : TSMap
  sessionCache : TSMap
  reports : List PotholeReport
  out : List PotholeReport
deriving DecidableEq, Repr

/-- The body of the `registerDetections` loop for one detection. `lat0`/`lon0`
are `userPos`; `effShort`/`effSess` the speed-adjusted TTLs; `now` the call's
`Date.now()`. -/
def registerOne (opts : SessionOpts) (cosDeg : ℚ → ℚ) (width height lat0 lon0
    effShort effSess now : ℚ) (acc : RegAcc) (det : Detection) : RegAcc :=
  if opts.bypassFilters then
    let cx := (det.bbox.x + det.bbox.w / 2) / width - 1/2
    let cy := (det.bbox.y + det.bbox.h / 2) / height - 1/2
    let offsetLat := cy * (3/100000)
    let offsetLon := cx * (3/100000) / cosDeg lat0
    let detLat := lat0 + offsetLat
    let detLon := lon0 + offsetLon
    let key := "bypass_" ++ toFixedQ 6 detLat ++ "_" ++ toFixedQ 6 detLon ++
      "_" ++ toString now
    let rep : PotholeReport := ⟨key, detLat, detLon, now⟩
    { acc with reports := acc.reports ++ [rep], out := acc.out ++ [rep] }
  else
    let isGated := !opts.centerGateEnabled || isCenterGated opts det.bbox width height
    if !isGated then acc
    else
      let cx := (det.bbox.x + det.bbox.w / 2) / width - 1/2
      let cy := (det.bbox.y + det.bbox.h / 2) / height - 1/2
      let offsetLat := cy * (3/100000)
      let offsetLon := cx * (3/100000) / cosDeg lat0
      let detLat := lat0 + offsetLat
      let detLon := lon0 + offsetLon
      let key := quantizeCell cosDeg detLat detLon opts.cellMeters
      if key ∈ acc.counted then acc
      else
        let lastShort := mapFind acc.shortCache key
        let lastSess := mapFind acc.sessionCache key
        let inShort : Bool :=
          match lastShort with
          | some t0 => decide (now - t0 ≤ effShort)
          | none => false
        let inSess : Bool :=
          match lastSess with
          | some t0 => decide (now - t0 ≤ effSess)
          | none => false
        if inShort || inSess then acc
        else if det.confidence < 1/4 then acc
        else
          let rep : PotholeReport := ⟨key ++ ":" ++ toString now, detLat, detLon, now⟩
          { counted := acc.counted ++ [key]
            shortCache := mapSet acc.shortCache key now
            sessionCache := mapSet acc.sessionCache key now
            reports := acc.reports ++ [rep]
            out := acc.out ++ [rep] }

/-- `registerDetections(detections, frameSize, userPos, userSpeed?)` at time
`now` (the call's `Date.now()`): prune/cap both caches, derive the
speed-adaptive short TTL, then run the detection loop. Returns the new
session state and the list of new reports. -/
def registerDetections (opts : SessionOpts) (cosDeg : ℚ → ℚ)
    (st : SessionState) (dets : List Detection) (width height lat0 lon0 : ℚ)
    (userSpeed : Option ℚ) (now : ℚ) : SessionState × List PotholeReport :=
  let short1 := capMap 1000 500 (prunePass opts.shortTTLms now st.shortCache)
  let sess1 := capMap 5000 2500 (prunePass opts.sessionTTLms now st.sessionCache)
  let speed := userSpeed.getD 0
  let effShort :=
    if speed > 10 then max 20000 (opts.shortTTLms * (67/100))
    else if speed < 1 then max opts.shortTTLms 60000
    else opts.shortTTLms
  let effSess := opts.sessionTTLms
  let fin := dets.foldl
    (registerOne opts cosDeg width height lat0 lon0 effShort effSess now)
    ⟨[], short1, sess1, st.reports, []⟩
  (⟨fin.shortCache, fin.sessionCache, fin.reports⟩, fin.out)

/-! ### Detection smoother — `DetectionSmoother` in `src/src/lib/supabase.ts`

`Math.sqrt` is modelled by an abstract `sqrtF : ℚ → ℚ` parameter. The
`tracks` map is an association list in insertion order. -/

/-- `TrackedDetection`. -/
structure TrackedDetection where
  detections : List Detection
  timestamps : List ℚ
  votes : ℕ
  avgConfidence : ℚ
  centerX : ℚ
  centerY : ℚ
deriving DecidableEq, Repr

/-- Mutable smoother state: the track map plus the adaptive `windowSize` and
`minVotes` (defaults 3 and 2; `iouThreshold`, `trackTTL = 1000` and
`minConfidenceThreshold = 0.6` are constants inlined below). -/
structure SmootherState where
  tracks : List (String × TrackedDetection)
  windowSize : ℕ
  minVotes : ℕ
deriving DecidableEq, Repr

def SmootherState.init : SmootherState := ⟨[], 3, 2⟩

/-- `setAdaptiveWindow(fps)`. -/
def setAdaptiveWindow (s : SmootherState) (fps : ℚ) : SmootherState :=
  if fps > 15 then { s with windowSize := 3, minVotes := 2 }
  else if fps > 8 then { s with windowSize := 2, minVotes := 2 }
  else { s with windowSize := 2, minVotes := 1 }

/-- `getCenter(bbox)`: bbox center divided by the hard-coded constant 640 on
both axes. -/
def getCenter (b : BBox) : ℚ × ℚ :=
  ((b.x + b.w / 2) / 640, (b.y + b.h / 2) / 640)

/-- `cleanupOldTracks(currentTime)`: evict tracks whose last timestamp is
older than `trackTTL = 1000`. (Tracks always carry at least one timestamp;
`getLastD 0` is the `timestamps[length-1]` access.) -/
def cleanupOldTracks (now : ℚ) (tracks : List (String × TrackedDetection)) :
    List (String × TrackedDetection) :=
  tracks.filter fun e => decide (¬ now - e.2.timestamps.getLastD 0 > 1000)

/-- `isSimilarDetection(center, track)`: Euclidean distance of centers below
0.1 (in normalized units), via the abstract square root. -/
def isSimilarDetection (sqrtF : ℚ → ℚ) (center : ℚ × ℚ)
    (track : TrackedDetection) : Bool :=
  let dx := center.1 - track.centerX
  let dy := center.2 - track.centerY
  decide (sqrtF (dx * dx + dy * dy) < 1/10)

/-- The matched-track update: append detection and timestamp, increment
votes, evict the oldest once the window exceeds `windowSize`, recompute the
average confidence over the kept window. -/
def updTrack (ws : ℕ) (det : Detection) (ts : ℚ) (tr : TrackedDetection) :
    TrackedDetection :=
  let dets1 := tr.detections ++ [det]
  let tss1 := tr.timestamps ++ [ts]
  let keep := if dets1.length > ws then (dets1.tail, tss1.tail) else (dets1, tss1)
  let avg := (keep.1.map (fun d => d.confidence)).sum / (keep.1.length : ℚ)
  { tr with detections := keep.1, timestamps := keep.2,
            votes := tr.votes + 1, avgConfidence := avg }

/-- Fallback detection for the (unreachable) empty-window case of
`track.detections[0]`. -/
def defaultDetection : Detection := ⟨⟨0, 0, 0, 0⟩, 0, ""⟩

/-- `getAveragedDetection(track)`: arithmetic mean of the window's boxes,
window-average confidence, class of the first detection. -/
def getAveragedDetection (tr : TrackedDetection) : Detection :=
  let total := tr.detections.foldl
    (fun (s : BBox) d => ⟨s.x + d.bbox.x, s.y + d.bbox.y, s.w + d.bbox.w, s.h + d.bbox.h⟩)
    ⟨0, 0, 0, 0⟩
  let n : ℚ := tr.detections.length
  { bbox := ⟨total.x / n, total.y / n, total.w / n, total.h / n⟩
    confidence := tr.avgConfidence
    cls := (tr.detections.headD defaultDetection).cls }

/-- Update the first entry satisfying `p` in place (the `break` after the
first similar track in the source's `for..of` loop). -/
def updateFirst (p : (String × TrackedDetection) → Bool)
    (f : TrackedDetection → TrackedDetection) :
    List (String × TrackedDetection) → List (String × TrackedDetection)
  | [] => []
  | e :: rest => if p e then (e.1, f e.2) :: rest else e :: updateFirst p f rest

/-- `Map.set` for the track map. -/
def trackSet : List (String × TrackedDetection) → String → TrackedDetection →
    List (String × TrackedDetection)
  | [], key, v => [(key, v)]
  | (k, w) :: rest, key, v =>
    if k = key then (k, v) :: rest else (k, w) :: trackSet rest key v

/-- Key of a freshly created track:
`` `${cx.toFixed(2)}_${cy.toFixed(2)}_${timestamp}` ``. -/
def newTrackKey (det : Detection) (ts : ℚ) : String :=
  let c := getCenter det.bbox
  toFixedQ 2 c.1 ++ "_" ++ toFixedQ 2 c.2 ++ "_" ++ toString ts

/-- A freshly created track (window of one, `votes = 1`). -/
def newTrackOf (det : Detection) (ts : ℚ) : TrackedDetection :=
  let c := getCenter det.bbox
  ⟨[det], [ts], 1, det.confidence, c.1, c.2⟩

/-- One iteration of the detection loop of `processFrame`: match against the
first similar track (mutating it in place and possibly emitting a confirmed
averaged detection), or create a new track and emit nothing. -/
def stepDet (sqrtF : ℚ → ℚ) (ws minV : ℕ) (ts : ℚ)
    (tracks : List (String × TrackedDetection)) (det : Detection) :
    List (String × TrackedDetection) × Option Detection :=
  match tracks.find? (fun e => isSimilarDetection sqrtF (getCenter det.bbox) e.2) with
  | some e =>
    (updateFirst (fun e2 => isSimilarDetection sqrtF (getCenter det.bbox) e2.2)
        (updTrack ws det ts) tracks,
      if minV ≤ (updTrack ws det ts e.2).votes ∧
          6/10 ≤ (updTrack ws det ts e.2).avgConfidence
      then some (getAveragedDetection (updTrack ws det ts e.2)) else none)
  | none => (trackSet tracks (newTrackKey det ts) (newTrackOf det ts), none)

/-- The smoother state after the optional adaptive-window update at the top
of `processFrame` (`if (fps !== undefined) this.setAdaptiveWindow(fps)`). -/
def effSmoother (s : SmootherState) (fps : Option ℚ) : SmootherState :=
  match fps with | some f => setAdaptiveWindow s f | none => s

/-- The track map entering the detection loop of `processFrame`: the source
calls `cleanupOldTracks(timestamp)` twice in a row. -/
def startTracks (s : SmootherState) (fps : Option ℚ) (ts : ℚ) :
    List (String × TrackedDetection) :=
  cleanupOldTracks ts (cleanupOldTracks ts (effSmoother s fps).tracks)

/-- `processFrame(detections, timestamp, fps?)`: optional adaptive window,
two `cleanupOldTracks` passes, then the detection loop collecting confirmed
detections in input order. -/
def processFrame (sqrtF : ℚ → ℚ) (s : SmootherState) (dets : List Detection)
    (ts : ℚ) (fps : Option ℚ) : SmootherState × List Detection :=
  let s1 := effSmoother s fps
  let fin := dets.foldl
    (fun (acc : List (String × TrackedDetection) × List Detection) det =>
      let r := stepDet sqrtF s1.windowSize s1.minVotes ts acc.1 det
      (r.1, acc.2 ++ r.2.toList))
    (startTracks s fps ts, ([] : List Detection))
  ({ s1 with tracks := fin.1 }, fin.2)

/-! ### Fingerprint tracker — `PotholeFingerprintTracker` in
`src/src/lib/pothole-fingerprint.ts`

`Math.random().toString(36).substr(2, 9)` is modelled by a caller-supplied
list of suffix strings `rnds`, one consumed per processed detection. -/

/-- `PotholeFingerprint`. -/
structure Fingerprint where
  relativeX : ℚ
  relativeY : ℚ
  aspectRatio : ℚ
  size : ℚ
  firstSeen : ℚ
  lastSeen : ℚ
  seenCount : ℕ
  counted : Bool
  id : String
deriving DecidableEq, Repr

/-- Tracker state: fingerprint map plus the counted-id set
(`similarityThreshold = 0.1` and `ttlMs = 8000` are constants inlined
below). -/
structure FPTrackerState where
  fingerprints : List (String × Fingerprint)
  countedIds : List String
deriving DecidableEq, Repr

def FPTrackerState.init : FPTrackerState := ⟨[], []⟩

/-- The generated id `` `fp_${timestamp}_${rnd}` ``. -/
def fingerprintId (now : ℚ) (rnd : String) : String :=
  "fp_" ++ toString now ++ "_" ++ rnd

/-- `calculateFingerprint(det, frameWidth, frameHeight, timestamp)` with the
random id suffix supplied. -/
def calculateFingerprint (det : Detection) (frameWidth frameHeight now : ℚ)
    (rnd : String) : Fingerprint :=
  let centerX := det.bbox.x + det.bbox.w / 2
  let centerY := det.bbox.y + det.bbox.h / 2
  let frameArea := frameWidth * frameHeight
  let bboxArea := det.bbox.w * det.bbox.h
  { relativeX := centerX / frameWidth
    relativeY := centerY / frameHeight
    aspectRatio := det.bbox.w / det.bbox.h
    size := bboxArea / frameArea
    firstSeen := now
    lastSeen := now
    seenCount := 1
    counted := false
    id := fingerprintId now rnd }

/-- `calculateSimilarity(fp1, fp2)`: weighted sum of position, size and
aspect similarity (each clamped to [0,1]). -/
def calculateSimilarity (sqrtF : ℚ → ℚ) (fp1 fp2 : Fingerprint) : ℚ :=
  let positionDiff := sqrtF ((fp1.relativeX - fp2.relativeX) ^ 2 +
    (fp1.relativeY - fp2.relativeY) ^ 2)
  let positionSim := 1 - min positionDiff 1
  let sizeDiff := |fp1.size - fp2.size| / max fp1.size fp2.size
  let sizeSim := 1 - min sizeDiff 1
  let aspectDiff := |fp1.aspectRatio - fp2.aspectRatio| /
    max fp1.aspectRatio fp2.aspectRatio
  let aspectSim := 1 - min aspectDiff 1
  positionSim * (6/10) + sizeSim * (25/100) + aspectSim * (15/100)

/-- One iteration of the best-match loop: a fingerprint within the
dissimilarity threshold (`1 - sim ≤ 0.1`) replaces the current candidate
exactly when its similarity is strictly higher (so the first of equals
wins). -/
def bestStep (sqrtF : ℚ → ℚ) (newFp : Fingerprint) :
    Option (String × Fingerprint × ℚ) → (String × Fingerprint) →
    Option (String × Fingerprint × ℚ)
  | none, e =>
    if 1 - calculateSimilarity sqrtF newFp e.2 ≤ 1/10
    then some (e.1, e.2, calculateSimilarity sqrtF newFp e.2) else none
  | some b, e =>
    if 1 - calculateSimilarity sqrtF newFp e.2 ≤ 1/10 then
      if calculateSimilarity sqrtF newFp e.2 > b.2.2
      then some (e.1, e.2, calculateSimilarity sqrtF newFp e.2) else some b
    else some b

/-- The best-match loop: among existing fingerprints with dissimilarity
`1 - sim ≤ 0.1`, keep the one with the strictly highest similarity (the
first such wins ties). -/
def findBestMatch (sqrtF : ℚ → ℚ) (newFp : Fingerprint)
    (fps : List (String × Fingerprint)) : Option (String × Fingerprint × ℚ) :=
  fps.foldl (bestStep sqrtF newFp) none

/-- The in-place update of a matched fingerprint: refresh `lastSeen`, bump
`seenCount`, exponentially smooth center and size toward the new observation
with `alpha = 0.3`. -/
def matchUpdate (newFp : Fingerprint) (now : ℚ) (fp : Fingerprint) : Fingerprint :=
  { fp with lastSeen := now
            seenCount := fp.seenCount + 1
            relativeX := (3/10) * newFp.relativeX + (7/10) * fp.relativeX
            relativeY := (3/10) * newFp.relativeY + (7/10) * fp.relativeY
            size := (3/10) * newFp.size + (7/10) * fp.size }

/-- Update the first entry with the given key in place (`Map` entries have
unique keys, so this is the `Map` mutation). -/
def assocUpdate (key : String) (f : Fingerprint → Fingerprint) :
    List (String × Fingerprint) → List (String × Fingerprint)
  | [] => []
  | (k, v) :: rest =>
    if k = key then (k, f v) :: rest else (k, v) :: assocUpdate key f rest

/-- `Map.set` for the fingerprint map. -/
def fpSet : List (String × Fingerprint) → String → Fingerprint →
    List (String × Fingerprint)
  | [], key, v => [(key, v)]
  | (k, w) :: rest, key, v =>
    if k = key then (k, v) :: rest else (k, w) :: fpSet rest key v

/-- `Map.get` for the fingerprint map. -/
def fpFind : List (String × Fingerprint) → String → Option Fingerprint
  | [], _ => none
  | (k, v) :: rest, key => if k = key then some v else fpFind rest key

/-- Loop-carried state of the `processDetections` loop. -/
structure FPAcc where
  fingerprints : List (String × Fingerprint)
  countedIds : List String
  newPotholes : List Fingerprint
  rnds : List String
deriving DecidableEq, Repr

/-- One iteration of the high-confidence detection loop of
`processDetections`: compute the candidate fingerprint (consuming one random
suffix), then either update the best match in place, or create the new
fingerprint marked counted and emit it. -/
def processOneDetection (sqrtF : ℚ → ℚ) (fw fh now : ℚ) (acc : FPAcc)
    (det : Detection) : FPAcc :=
  let rnd := acc.rnds.headD ""
  let newFp := calculateFingerprint det fw fh now rnd
  match findBestMatch sqrtF newFp acc.fingerprints with
  | some b =>
    { acc with fingerprints := assocUpdate b.1 (matchUpdate newFp now) acc.fingerprints
               rnds := acc.rnds.tail }
  | none =>
    let newFp2 := { newFp with counted := true }
    { fingerprints := fpSet acc.fingerprints newFp2.id newFp2
      countedIds :=
        if newFp2.id ∈ acc.countedIds then acc.countedIds
        else acc.countedIds ++ [newFp2.id]
      newPotholes := acc.newPotholes ++ [newFp2]
      rnds := acc.rnds.tail }

/-- `processDetections(detections, frameWidth, frameHeight)` at time `now`
(the call's `Date.now()`): TTL-evict fingerprints (and their counted ids),
filter out detections below the 0.40 confidence floor, run the loop.
Returns the new tracker state, the unfiltered `allDetections`, and
`newPotholesToCount`. -/
def processDetections (sqrtF : ℚ → ℚ) (st : FPTrackerState)
    (dets : List Detection) (fw fh now : ℚ) (rnds : List String) :
    FPTrackerState × List Detection × List Fingerprint :=
  let expired := (st.fingerprints.filter fun e => decide (now - e.2.lastSeen > 8000)).map
    fun e => e.1
  let fps1 := st.fingerprints.filter fun e => decide (¬ now - e.2.lastSeen > 8000)
  let counted1 := st.countedIds.filter fun i => decide (i ∉ expired)
  let filteredDetections := dets.filter fun d => decide (¬ d.confidence < 40/100)
  let fin := filteredDetections.foldl (processOneDetection sqrtF fw fh now)
    ⟨fps1, counted1, [], rnds⟩
  (⟨fin.fingerprints, fin.countedIds⟩, dets, fin.newPotholes)

/-! ## Theorems -/

/-! ### C5 — degenerate interpolation bracket -/

/-- Two buffered samples sharing the timestamp 5000. -/
def degenPoint1 : GPSPoint := ⟨10, 20, 5, some 1, some 0, 5000⟩

def degenPoint2 : GPSPoint := ⟨11, 21, 7, some 2, some 90, 5000⟩

def degenTracker : GPSTracker :=
  ⟨[degenPoint1, degenPoint2], KalmanFilter.init, KalmanFilter.init, some degenPoint2⟩

/-- C5: `getPositionAt` on a bracket of identical timestamps equal to the
query timestamp does NOT return the "before" sample: the interpolation ratio
is the JavaScript `0/0 = NaN` and the returned point has non-finite (`none`)
lat/lng/speed/heading, where the claim requires the before sample's finite
coordinates (lat `some 10`). -/
theorem gps_getPositionAt_zero_bracket_nan :
    GPSTracker.getPositionAt (fun _ => 1) (fun _ => 0) degenTracker 5000 =
      some ⟨none, none, 7, some none, some none, 5000⟩
    ∧ degenPoint1.toInterp.lat = some 10 := by
  constructor
  · norm_num [GPSTracker.getPositionAt, degenTracker, degenPoint1, degenPoint2,
      findBracket, interpolateHeading, GPSPoint.toInterp]
  · rfl

/-! ### C6 — Kalman convergence after 100 constant measurements -/

/-- C6 (counterexample): for the in-range measurement `m = 100`, one hundred
applications of `filter(m)` to a fresh filter leave `x` farther than `1e-6`
from `m` (the exact residual is about `2.7e-3`). -/
theorem kalman_100_not_within_1e6 :
    1/1000000 < |(iterateFilter 100 100).x - 100| ∧ |(100 : ℚ)| ≤ 180 := by
  constructor
  · with_unfolding_all decide
  · norm_num

lemma iterateFilter_q (n : ℕ) (m : ℚ) : (iterateFilter n m).q = 1/100000 := by
  induction n with
  | zero => rfl
  | succ k ih => simp [iterateFilter, KalmanFilter.filter, ih]

lemma iterateFilter_r (n : ℕ) (m : ℚ) : (iterateFilter n m).r = 1/100 := by
  induction n with
  | zero => rfl
  | succ k ih => simp [iterateFilter, KalmanFilter.filter, ih]

lemma iterateFilter_p (n : ℕ) (m : ℚ) : (iterateFilter n m).p = (iterateFilter n 1).p := by
  induction n with
  | zero => rfl
  | succ k ih =>
    simp only [iterateFilter, KalmanFilter.filter, ih, iterateFilter_q, iterateFilter_r]

lemma iterateFilter_x_linear (n : ℕ) (m : ℚ) :
    (iterateFilter n m).x = (iterateFilter n 1).x * m := by
  induction n with
  | zero => simp [iterateFilter, KalmanFilter.init]
  | succ k ih =>
    simp only [iterateFilter, KalmanFilter.filter, ih, iterateFilter_q,
      iterateFilter_r, iterateFilter_p]
    ring

/-- C6 (amended): the state after 100 constant measurements is exactly linear
in the measurement, `x = c·m` with `c = (iterateFilter 100 1).x ≈ 1 - 2.7e-5`,
so over the lat/lon range `|m| ≤ 180` the residual is bounded by `6e-3`
(not `1e-6`; the `1e-6` bound of the claim holds only for `|m|` up to about
`0.037`). -/
theorem kalman_100_linear_residual (m : ℚ) :
    (iterateFilter 100 m).x = (iterateFilter 100 1).x * m
    ∧ (|m| ≤ 180 → |(iterateFilter 100 m).x - m| ≤ 6/1000) := by
  refine ⟨iterateFilter_x_linear 100 m, fun hm => ?_⟩
  rw [iterateFilter_x_linear 100 m]
  have h1 : (iterateFilter 100 1).x * m - m = ((iterateFilter 100 1).x - 1) * m := by
    ring
  rw [h1, abs_mul]
  calc |(iterateFilter 100 1).x - 1| * |m|
      ≤ |(iterateFilter 100 1).x - 1| * 180 := by
        exact mul_le_mul_of_nonneg_left hm (abs_nonneg _)
    _ ≤ 6/1000 := by with_unfolding_all decide

/-- C6 witness: at `m = 100` the amended residual bound holds. -/
theorem kalman_100_linear_residual_witness :
    |(100 : ℚ)| ≤ 180 ∧ |(iterateFilter 100 100).x - 100| ≤ 6/1000 :=
  ⟨by norm_num, (kalman_100_linear_residual 100).2 (by norm_num)⟩

/-! ### C7 — extrapolation cap at 3 s -/

/-- C7: whenever the elapsed time since the newest buffered sample exceeds
3000 ms, `getCurrentPosition` returns that latest sample unmodified, for
every buffer, speed, heading and trig model. -/
theorem gps_extrapolation_cap (cosDeg sinDeg : ℚ → ℚ) (t : GPSTracker)
    (now : ℚ) (latest : GPSPoint) (hl : t.buffer.getLast? = some latest)
    (hstale : 3000 < now - latest.timestamp) :
    t.getCurrentPosition cosDeg sinDeg now = some latest := by
  match hbuf : t.buffer with
  | [] => simp [hbuf] at hl
  | [p] =>
    rw [hbuf] at hl
    simp only [List.getLast?_singleton, Option.some.injEq] at hl
    simp [GPSTracker.getCurrentPosition, hbuf, hl]
  | p :: q :: rest =>
    rw [hbuf] at hl
    have hlast : (p :: q :: rest).getLastD p = latest := by
      rw [List.getLastD_eq_getLast?, hl]
      rfl
    have hrecent : ¬ now - latest.timestamp < 2000 := by linarith
    simp only [GPSTracker.getCurrentPosition, hbuf, hlast, if_neg hrecent]
    cases hsp : latest.speed with
    | none => rfl
    | some sp =>
      cases hhd : latest.heading with
      | none => rfl
      | some hd =>
        by_cases hfast : sp > 1/2
        · have hdelta : (now - latest.timestamp) / 1000 > 3 := by
            rw [gt_iff_lt, lt_div_iff₀ (by norm_num : (0:ℚ) < 1000)]
            linarith
          simp only [if_pos hfast, if_pos hdelta]
        · simp only [if_neg hfast]

/-- C7 witness: the claim's instance — last sample at t=0 with speed 5 and
heading 90, queried at 4000 ms — returns the unmodified last sample. -/
theorem gps_extrapolation_cap_witness :
    GPSTracker.getCurrentPosition (fun _ => 1) (fun _ => 0)
      ⟨[degenPoint1, ⟨10, 20, 5, some 5, some 90, 0⟩], KalmanFilter.init,
        KalmanFilter.init, none⟩ 4000 = some ⟨10, 20, 5, some 5, some 90, 0⟩ :=
  gps_extrapolation_cap (fun _ => 1) (fun _ => 0) _ 4000 _ (by rfl) (by norm_num)

/-! ### C10 — first fix biased toward the origin -/

/-- C10: the Kalman state starts at `x = 0` and is never seeded from the
first measurement, so the first `addPoint` after construction or `reset`
stores (and `getCurrentPosition` with one buffered sample returns) lat/lng
scaled by `(1+q)/((1+q)+r) = 100001/101001 ≈ 0.990099`, not the raw fix. -/
theorem gps_first_fix_biased (cosDeg sinDeg : ℚ → ℚ) (tr : GPSTracker)
    (p : GPSPoint) (now : ℚ) :
    (GPSTracker.init.addPoint p).getCurrentPosition cosDeg sinDeg now =
      some { p with lat := (100001/101001) * p.lat, lng := (100001/101001) * p.lng }
    ∧ (tr.reset.addPoint p).getCurrentPosition cosDeg sinDeg now =
      some { p with lat := (100001/101001) * p.lat, lng := (100001/101001) * p.lng }
    ∧ (100001/101001 : ℚ) = (1 + 1/100000) / ((1 + 1/100000) + 1/100) := by
  refine ⟨?_, ?_, by norm_num⟩ <;>
  · simp only [GPSTracker.reset, GPSTracker.addPoint, GPSTracker.init,
      KalmanFilter.filter, KalmanFilter.init, GPSTracker.getCurrentPosition]
    norm_num

/-! ### C8 — fingerprint confidence floor -/

/-- C8: `processDetections` returns the full unfiltered input as
`allDetections`, while the tracker state and `newPotholesToCount` are
exactly those obtained from the sub-list of detections with confidence
`≥ 0.40` — detections below the floor are excluded from matching and from
counting but not from display. -/
theorem fp_confidence_floor (sqrtF : ℚ → ℚ) (st : FPTrackerState)
    (dets : List Detection) (fw fh now : ℚ) (rnds : List String) :
    (processDetections sqrtF st dets fw fh now rnds).2.1 = dets
    ∧ (processDetections sqrtF st dets fw fh now rnds).1 =
        (processDetections sqrtF st
          (dets.filter fun d => decide (¬ d.confidence < 40/100)) fw fh now rnds).1
    ∧ (processDetections sqrtF st dets fw fh now rnds).2.2 =
        (processDetections sqrtF st
          (dets.filter fun d => decide (¬ d.confidence < 40/100)) fw fh now rnds).2.2 := by
  refine ⟨rfl, ?_, ?_⟩ <;>
  · simp only [processDetections, List.filter_filter, Bool.and_self]

/-! ### C9 — smoother center normalization -/

/-- A detection whose bbox (center (1220, 1220)) lies inside a 1280×1280
frame. -/
def det9 : Detection := ⟨⟨1200, 1200, 40, 40⟩, 9/10, "pothole"⟩

/-- C9 (counterexample): processing `det9` (bbox inside its 1280×1280 frame)
stores track center `1220/640 = 61/32`, which is neither within `[0,1]` nor
equal to the bbox center divided by the frame dimension (`1220/1280`): the
smoother normalizes by the hard-coded constant 640, not by the frame size. -/
theorem smoother_center_not_frame_relative :
    ((processFrame (fun _ => 0) SmootherState.init [det9] 0 none).1.tracks.map
      fun e => e.2.centerX) = [61/32]
    ∧ ¬ ((61/32 : ℚ) ≤ 1)
    ∧ (61/32 : ℚ) ≠ 1220/1280 := by
  refine ⟨?_, by norm_num, by norm_num⟩
  norm_num [processFrame, effSmoother, startTracks, cleanupOldTracks, stepDet,
    newTrackOf, getCenter, trackSet, SmootherState.init, det9]

/-- C9 (amended): a detection that creates a new track stores as its center
the bbox center divided by the hard-coded constant 640 on each axis (the
smoother assumes 640×640 frames); the center lies in `[0,1]` when the bbox
center lies within `[0,640]` on each axis. -/
theorem smoother_center_640 (sqrtF : ℚ → ℚ) (ws minV : ℕ) (ts : ℚ)
    (tks : List (String × TrackedDetection)) (det : Detection)
    (hno : tks.find? (fun e => isSimilarDetection sqrtF (getCenter det.bbox) e.2) = none)
    (hx0 : 0 ≤ det.bbox.x + det.bbox.w / 2) (hx1 : det.bbox.x + det.bbox.w / 2 ≤ 640)
    (hy0 : 0 ≤ det.bbox.y + det.bbox.h / 2) (hy1 : det.bbox.y + det.bbox.h / 2 ≤ 640) :
    (stepDet sqrtF ws minV ts tks det).1 =
      trackSet tks (newTrackKey det ts) (newTrackOf det ts)
    ∧ (newTrackOf det ts).centerX = (det.bbox.x + det.bbox.w / 2) / 640
    ∧ (newTrackOf det ts).centerY = (det.bbox.y + det.bbox.h / 2) / 640
    ∧ 0 ≤ (newTrackOf det ts).centerX ∧ (newTrackOf det ts).centerX ≤ 1
    ∧ 0 ≤ (newTrackOf det ts).centerY ∧ (newTrackOf det ts).centerY ≤ 1 := by
  refine ⟨?_, rfl, rfl, ?_, ?_, ?_, ?_⟩
  · simp [stepDet, hno]
  · exact div_nonneg hx0 (by norm_num)
  · show (det.bbox.x + det.bbox.w / 2) / 640 ≤ 1
    rw [div_le_one (by norm_num : (0:ℚ) < 640)]
    linarith
  · exact div_nonneg hy0 (by norm_num)
  · show (det.bbox.y + det.bbox.h / 2) / 640 ≤ 1
    rw [div_le_one (by norm_num : (0:ℚ) < 640)]
    linarith

/-- C9 witness: the amended statement at a concrete in-frame detection. -/
theorem smoother_center_640_witness :
    (stepDet (fun _ => 0) 3 2 0 [] ⟨⟨300, 300, 40, 40⟩, 9/10, "pothole"⟩).1 =
      trackSet [] (newTrackKey ⟨⟨300, 300, 40, 40⟩, 9/10, "pothole"⟩ 0)
        (newTrackOf ⟨⟨300, 300, 40, 40⟩, 9/10, "pothole"⟩ 0)
    ∧ (newTrackOf ⟨⟨300, 300, 40, 40⟩, 9/10, "pothole"⟩ 0).centerX =
        ((300 : ℚ) + 40 / 2) / 640
    ∧ (newTrackOf ⟨⟨300, 300, 40, 40⟩, 9/10, "pothole"⟩ 0).centerY =
        ((300 : ℚ) + 40 / 2) / 640
    ∧ 0 ≤ (newTrackOf ⟨⟨300, 300, 40, 40⟩, 9/10, "pothole"⟩ 0).centerX
    ∧ (newTrackOf ⟨⟨300, 300, 40, 40⟩, 9/10, "pothole"⟩ 0).centerX ≤ 1
    ∧ 0 ≤ (newTrackOf ⟨⟨300, 300, 40, 40⟩, 9/10, "pothole"⟩ 0).centerY
    ∧ (newTrackOf ⟨⟨300, 300, 40, 40⟩, 9/10, "pothole"⟩ 0).centerY ≤ 1 :=
  smoother_center_640 (fun _ => 0) 3 2 0 [] ⟨⟨300, 300, 40, 40⟩, 9/10, "pothole"⟩
    rfl (by norm_num) (by norm_num) (by norm_num) (by norm_num)

/-! ### C3 — no confirmation on first observation -/

/-- Well-formedness of the track map: every track has at least one vote
(every reachable state satisfies this: tracks are created with `votes = 1`
and matching only increments). -/
def TracksWF (tks : List (String × TrackedDetection)) : Prop :=
  ∀ e ∈ tks, 1 ≤ e.2.votes

lemma tracksWF_filter (p : (String × TrackedDetection) → Bool)
    (tks : List (String × TrackedDetection)) (h : TracksWF tks) :
    TracksWF (tks.filter p) :=
  fun e he => h e (List.mem_of_mem_filter he)

lemma tracksWF_trackSet (tks : List (String × TrackedDetection)) (k : String)
    (v : TrackedDetection) (h : TracksWF tks) (hv : 1 ≤ v.votes) :
    TracksWF (trackSet tks k v) := by
  induction tks with
  | nil => intro e he; simp [trackSet] at he; simp [he, hv]
  | cons a rest ih =>
    intro e he
    simp only [trackSet] at he
    by_cases hk : a.1 = k
    · rw [if_pos hk] at he
      rcases List.mem_cons.1 he with h1 | h1
      · simp [h1, hv]
      · exact h e (List.mem_cons_of_mem a h1)
    · rw [if_neg hk] at he
      rcases List.mem_cons.1 he with h1 | h1
      · exact h e (h1 ▸ List.mem_cons_self a rest)
      · exact ih (fun x hx => h x (List.mem_cons_of_mem a hx)) e h1

lemma tracksWF_updateFirst (p : (String × TrackedDetection) → Bool)
    (f : TrackedDetection → TrackedDetection)
    (hf : ∀ tr, 1 ≤ tr.votes → 1 ≤ (f tr).votes)
    (tks : List (String × TrackedDetection)) (h : TracksWF tks) :
    TracksWF (updateFirst p f tks) := by
  induction tks with
  | nil => intro e he; simp [updateFirst] at he
  | cons a rest ih =>
    intro e he
    simp only [updateFirst] at he
    by_cases hp : p a
    · rw [if_pos hp] at he
      rcases List.mem_cons.1 he with h1 | h1
      · have := h a (List.mem_cons_self a rest)
        simp [h1]
        exact hf a.2 this
      · exact h e (List.mem_cons_of_mem a h1)
    · rw [if_neg hp] at he
      rcases List.mem_cons.1 he with h1 | h1
      · exact h e (h1 ▸ List.mem_cons_self a rest)
      · exact ih (fun x hx => h x (List.mem_cons_of_mem a hx)) e h1

lemma updTrack_votes (ws : ℕ) (det : Detection) (ts : ℚ) (tr : TrackedDetection) :
    (updTrack ws det ts tr).votes = tr.votes + 1 := by
  simp only [updTrack]

lemma stepDet_wf (sqrtF : ℚ → ℚ) (ws minV : ℕ) (ts : ℚ)
    (tks : List (String × TrackedDetection)) (det : Detection)
    (h : TracksWF tks) : TracksWF (stepDet sqrtF ws minV ts tks det).1 := by
  unfold stepDet
  cases hf : tks.find? fun e => isSimilarDetection sqrtF (getCenter det.bbox) e.2 with
  | none =>
    simp only [hf]
    exact tracksWF_trackSet tks _ _ h (by simp [newTrackOf])
  | some e =>
    simp only [hf]
    exact tracksWF_updateFirst _ _ (fun tr htr => by simp [updTrack_votes]) tks h

/-- The first entry satisfying `p` — the one `find?` returns — is updated in
place by `updateFirst`, so its image under `f` is in the updated map. -/
lemma updateFirst_mem_of_find? (p : (String × TrackedDetection) → Bool)
    (f : TrackedDetection → TrackedDetection) :
    ∀ (tks : List (String × TrackedDetection)) (e : String × TrackedDetection),
      tks.find? p = some e → (e.1, f e.2) ∈ updateFirst p f tks := by
  intro tks
  induction tks with
  | nil => intro e he; simp at he
  | cons a rest ih =>
    intro e he
    by_cases hp : p a
    · rw [List.find?_cons_of_pos _ hp, Option.some.injEq] at he
      subst he
      simp only [updateFirst, if_pos hp]
      exact List.mem_cons_self _ _
    · rw [List.find?_cons_of_neg _ hp] at he
      simp only [updateFirst, if_neg hp]
      exact List.mem_cons_of_mem a (ih e he)

/-- If a loop step emits a confirmed detection, the emitting track is the
`find?`-matched entry `e` of the pre-step map: the emission is the average
of `updTrack` applied to `e`, that updated track has at least two votes
(on a well-formed map), and it sits in the post-step map. -/
lemma stepDet_emit (sqrtF : ℚ → ℚ) (ws minV : ℕ) (ts : ℚ)
    (tks : List (String × TrackedDetection)) (det : Detection)
    (h : TracksWF tks) (c : Detection)
    (hc : (stepDet sqrtF ws minV ts tks det).2 = some c) :
    ∃ e : String × TrackedDetection,
      tks.find? (fun e2 => isSimilarDetection sqrtF (getCenter det.bbox) e2.2) = some e
      ∧ 2 ≤ (updTrack ws det ts e.2).votes
      ∧ c = getAveragedDetection (updTrack ws det ts e.2)
      ∧ (e.1, updTrack ws det ts e.2) ∈ (stepDet sqrtF ws minV ts tks det).1 := by
  unfold stepDet at hc
  cases hf : tks.find? fun e => isSimilarDetection sqrtF (getCenter det.bbox) e.2 with
  | none => rw [hf] at hc; simp at hc
  | some e =>
    rw [hf] at hc
    simp only [] at hc
    by_cases hcond : minV ≤ (updTrack ws det ts e.2).votes ∧
        6/10 ≤ (updTrack ws det ts e.2).avgConfidence
    · rw [if_pos hcond, Option.some.injEq] at hc
      have hmem : (stepDet sqrtF ws minV ts tks det).1 =
          updateFirst (fun e2 => isSimilarDetection sqrtF (getCenter det.bbox) e2.2)
            (updTrack ws det ts) tks := by
        unfold stepDet
        rw [hf]
      refine ⟨e, rfl, ?_, hc.symm, ?_⟩
      · rw [updTrack_votes]
        have := h e (List.mem_of_find?_eq_some hf)
        omega
      · rw [hmem]
        exact updateFirst_mem_of_find? _ _ tks e hf
    · rw [if_neg hcond] at hc; exact absurd hc (by simp)

/-- The intermediate track maps of the detection loop: for each detection of
the input list, in order, the track map immediately before its iteration. -/
def foldStates (sqrtF : ℚ → ℚ) (ws minV : ℕ) (ts : ℚ) :
    List Detection → List (String × TrackedDetection) →
    List (List (String × TrackedDetection))
  | [], _ => []
  | det :: rest, tks =>
    tks :: foldStates sqrtF ws minV ts rest (stepDet sqrtF ws minV ts tks det).1

/-- Provenance of a confirmed detection in the actual run: some intermediate
track map `tks` of the loop trace and some input detection `det` are such
that `det` matches the existing entry `e` of `tks` returned by `find?`, the
loop step on `tks` and `det` emits exactly `d`, and `d` is the average of
the updated matched track, which holds at least two votes and is present in
the post-step map. -/
def EmittedWithVotes (sqrtF : ℚ → ℚ) (ws minV : ℕ) (ts : ℚ)
    (dets : List Detection) (states : List (List (String × TrackedDetection)))
    (d : Detection) : Prop :=
  ∃ tks ∈ states, ∃ det ∈ dets, ∃ e : String × TrackedDetection,
    tks.find? (fun e2 => isSimilarDetection sqrtF (getCenter det.bbox) e2.2) = some e
    ∧ (stepDet sqrtF ws minV ts tks det).2 = some d
    ∧ 2 ≤ (updTrack ws det ts e.2).votes
    ∧ d = getAveragedDetection (updTrack ws det ts e.2)
    ∧ (e.1, updTrack ws det ts e.2) ∈ (stepDet sqrtF ws minV ts tks det).1

lemma foldStep_spec (sqrtF : ℚ → ℚ) (ws minV : ℕ) (ts : ℚ) :
    ∀ (dets : List Detection) (tks : List (String × TrackedDetection))
      (acc : List Detection), TracksWF tks →
      (∀ d ∈ (dets.foldl
          (fun (a : List (String × TrackedDetection) × List Detection) det =>
            let r := stepDet sqrtF ws minV ts a.1 det
            (r.1, a.2 ++ r.2.toList)) (tks, acc)).2,
          d ∈ acc ∨
            EmittedWithVotes sqrtF ws minV ts dets
              (foldStates sqrtF ws minV ts dets tks) d)
      ∧ TracksWF (dets.foldl
          (fun (a : List (String × TrackedDetection) × List Detection) det =>
            let r := stepDet sqrtF ws minV ts a.1 det
            (r.1, a.2 ++ r.2.toList)) (tks, acc)).1 := by
  intro dets
  induction dets with
  | nil => intro tks acc hwf; exact ⟨fun d hd => Or.inl hd, hwf⟩
  | cons det rest ih =>
    intro tks acc hwf
    have hrest := ih (stepDet sqrtF ws minV ts tks det).1
      (acc ++ ((stepDet sqrtF ws minV ts tks det).2).toList)
      (stepDet_wf sqrtF ws minV ts tks det hwf)
    refine ⟨?_, hrest.2⟩
    intro d hd
    rcases hrest.1 d hd with hmem | hEWV
    · rcases List.mem_append.1 hmem with h1 | h1
      · exact Or.inl h1
      · right
        cases he : (stepDet sqrtF ws minV ts tks det).2 with
        | none => rw [he] at h1; simp at h1
        | some c =>
          rw [he] at h1
          simp only [Option.toList_some, List.mem_singleton] at h1
          subst h1
          obtain ⟨e, hfind, hv, havg, hpost⟩ :=
            stepDet_emit sqrtF ws minV ts tks det hwf d he
          exact ⟨tks, List.mem_cons_self _ _, det, List.mem_cons_self _ _,
            e, hfind, he, hv, havg, hpost⟩
    · right
      obtain ⟨tks2, hst, det2, hdet2, hrest2⟩ := hEWV
      exact ⟨tks2, List.mem_cons_of_mem _ hst, det2,
        List.mem_cons_of_mem _ hdet2, hrest2⟩

lemma setAdaptiveWindow_tracks (s : SmootherState) (f : ℚ) :
    (setAdaptiveWindow s f).tracks = s.tracks := by
  unfold setAdaptiveWindow
  split
  · rfl
  · split <;> rfl

/-- C3: on every well-formed state (all tracks have ≥ 1 vote — true of all
reachable states), every detection confirmed by `processFrame` was emitted
by a loop step of the actual run (its pre-step track map is in the loop's
trace `foldStates`) in which the detection matched an existing track via
`find?`, and the emitted value is the average of that matched track after
the update, holding at least two votes and present in the post-step map —
so no confirmation on a first observation. The well-formedness invariant is
preserved, and a detection matching no existing track — one that creates a
new track — emits nothing in that step, for every window/votes setting
including `minVotes = 1`. -/
theorem smoother_no_first_observation_confirm (sqrtF : ℚ → ℚ)
    (s : SmootherState) (dets : List Detection) (ts : ℚ) (fps : Option ℚ)
    (hwf : TracksWF s.tracks) :
    (∀ d ∈ (processFrame sqrtF s dets ts fps).2,
        EmittedWithVotes sqrtF (effSmoother s fps).windowSize
          (effSmoother s fps).minVotes ts dets
          (foldStates sqrtF (effSmoother s fps).windowSize
            (effSmoother s fps).minVotes ts dets (startTracks s fps ts)) d)
    ∧ TracksWF (processFrame sqrtF s dets ts fps).1.tracks
    ∧ ∀ (ws minV : ℕ) (tks : List (String × TrackedDetection)) (det : Detection),
        tks.find? (fun e => isSimilarDetection sqrtF (getCenter det.bbox) e.2) = none →
        (stepDet sqrtF ws minV ts tks det).2 = none := by
  have htr : TracksWF (startTracks s fps ts) := by
    unfold startTracks
    apply tracksWF_filter
    apply tracksWF_filter
    cases fps with
    | none => exact hwf
    | some f =>
      show TracksWF (setAdaptiveWindow s f).tracks
      rw [setAdaptiveWindow_tracks]
      exact hwf
  have hmain := foldStep_spec sqrtF (effSmoother s fps).windowSize
    (effSmoother s fps).minVotes ts dets (startTracks s fps ts) [] htr
  refine ⟨?_, hmain.2, ?_⟩
  · intro d hd
    rcases hmain.1 d hd with hmem | hEWV
    · simp at hmem
    · exact hEWV
  · intro ws minV tks det hno
    unfold stepDet
    rw [hno]

/-- C3 witness: the theorem instantiated at the initial (empty) smoother
state and two copies of a concrete detection — the second copy matches the
track created by the first, so the run actually emits a confirmed
detection. -/
theorem smoother_no_first_observation_confirm_witness :
    (∀ d ∈ (processFrame (fun _ => 0) SmootherState.init [det9, det9] 0 none).2,
        EmittedWithVotes (fun _ => 0)
          (effSmoother SmootherState.init none).windowSize
          (effSmoother SmootherState.init none).minVotes 0 [det9, det9]
          (foldStates (fun _ => 0) (effSmoother SmootherState.init none).windowSize
            (effSmoother SmootherState.init none).minVotes 0 [det9, det9]
            (startTracks SmootherState.init none 0)) d)
    ∧ TracksWF (processFrame (fun _ => 0) SmootherState.init [det9, det9] 0 none).1.tracks
    ∧ ∀ (ws minV : ℕ) (tks : List (String × TrackedDetection)) (det : Detection),
        tks.find? (fun e => isSimilarDetection (fun _ => 0) (getCenter det.bbox) e.2) = none →
        (stepDet (fun _ => 0) ws minV 0 tks det).2 = none :=
  smoother_no_first_observation_confirm (fun _ => 0) SmootherState.init [det9, det9] 0 none
    (by intro e he; simp [SmootherState.init] at he)

/-! ### C2 — at most one report per grid cell within one call -/

/-- A centered detection (bbox center = frame center for a 640×640 frame). -/
def detC : Detection := ⟨⟨300, 300, 40, 40⟩, 9/10, "pothole"⟩

/-- Default options with the testing bypass enabled. -/
def bypassOpts : SessionOpts := { defaultOpts with bypassFilters := true }

/-- C2 (counterexample): with the bypass enabled, one `registerDetections`
call on two identical detections emits two reports whose positions quantize
to the same grid cell — the per-cell uniqueness claimed for bypass mode
fails (bypass skips the `countedCells` check entirely). -/
theorem register_bypass_two_reports_same_cell :
    ¬ (((registerDetections bypassOpts (fun _ => 1) SessionState.init
          [detC, detC] 640 640 10 20 none 0).2).map
        (fun r => quantizeCell (fun _ => 1) r.lat r.lon bypassOpts.cellMeters)).Nodup := by
  norm_num [registerDetections, registerOne, bypassOpts, defaultOpts, detC,
    SessionState.init, capMap, prunePass, List.foldl]

lemma registerOne_cells (opts : SessionOpts) (cosDeg : ℚ → ℚ)
    (w h lat0 lon0 eS eSS now : ℚ) (hbp : opts.bypassFilters = false)
    (acc : RegAcc) (det : Detection)
    (h1 : (acc.out.map fun r => quantizeCell cosDeg r.lat r.lon opts.cellMeters).Nodup)
    (h2 : ∀ r ∈ acc.out, quantizeCell cosDeg r.lat r.lon opts.cellMeters ∈ acc.counted) :
    ((registerOne opts cosDeg w h lat0 lon0 eS eSS now acc det).out.map
      fun r => quantizeCell cosDeg r.lat r.lon opts.cellMeters).Nodup
    ∧ ∀ r ∈ (registerOne opts cosDeg w h lat0 lon0 eS eSS now acc det).out,
        quantizeCell cosDeg r.lat r.lon opts.cellMeters ∈
          (registerOne opts cosDeg w h lat0 lon0 eS eSS now acc det).counted := by
  unfold registerOne
  simp only [hbp, Bool.false_eq_true, if_false]
  split
  · exact ⟨h1, h2⟩
  split
  · exact ⟨h1, h2⟩
  split
  · exact ⟨h1, h2⟩
  split
  · exact ⟨h1, h2⟩
  next hkey _ _ =>
    simp only [List.map_append, List.map_cons, List.map_nil]
    constructor
    · refine h1.append (List.nodup_singleton _) ?_
      intro x hx hx2
      simp only [List.mem_singleton] at hx2
      subst hx2
      obtain ⟨r, hr, hcell⟩ := List.mem_map.1 hx
      exact hkey (hcell ▸ h2 r hr)
    · intro r hr
      rcases List.mem_append.1 hr with hro | hrn
      · exact List.mem_append_left _ (h2 r hro)
      · simp only [List.mem_singleton] at hrn
        subst hrn
        exact List.mem_append_right _ (List.mem_singleton.2 rfl)

lemma registerFold_cells (opts : SessionOpts) (cosDeg : ℚ → ℚ)
    (w h lat0 lon0 eS eSS now : ℚ) (hbp : opts.bypassFilters = false)
    (dets : List Detection) :
    ∀ acc : RegAcc,
      (acc.out.map fun r => quantizeCell cosDeg r.lat r.lon opts.cellMeters).Nodup →
      (∀ r ∈ acc.out, quantizeCell cosDeg r.lat r.lon opts.cellMeters ∈ acc.counted) →
      ((dets.foldl (registerOne opts cosDeg w h lat0 lon0 eS eSS now) acc).out.map
        fun r => quantizeCell cosDeg r.lat r.lon opts.cellMeters).Nodup := by
  induction dets with
  | nil => intro acc ha _; exact ha
  | cons det rest ih =>
    intro acc ha hb
    have hstep := registerOne_cells opts cosDeg w h lat0 lon0 eS eSS now hbp acc det ha hb
    exact ih _ hstep.1 hstep.2

/-- C2 (amended): whenever the bypass is off, one `registerDetections` call
emits at most one report per grid cell at the configured cell size (the
reports' cell keys are pairwise distinct); with the bypass enabled this
fails (see the counterexample) since bypass emits one report per detection
with no per-cell dedup. -/
theorem register_at_most_one_per_cell (opts : SessionOpts) (cosDeg : ℚ → ℚ)
    (st : SessionState) (dets : List Detection) (w h lat0 lon0 : ℚ)
    (sp : Option ℚ) (now : ℚ) (hbp : opts.bypassFilters = false) :
    (((registerDetections opts cosDeg st dets w h lat0 lon0 sp now).2).map
      (fun r => quantizeCell cosDeg r.lat r.lon opts.cellMeters)).Nodup := by
  unfold registerDetections
  exact registerFold_cells opts cosDeg w h lat0 lon0 _ _ now hbp dets _
    (by simp) (by simp)

/-- C2 witness: the amended statement at the default options (bypass off)
and a concrete call. -/
theorem register_at_most_one_per_cell_witness :
    defaultOpts.bypassFilters = false
    ∧ (((registerDetections defaultOpts (fun _ => 1) SessionState.init
          [detC, detC] 640 640 10 20 none 0).2).map
        (fun r => quantizeCell (fun _ => 1) r.lat r.lon defaultOpts.cellMeters)).Nodup :=
  ⟨rfl, register_at_most_one_per_cell defaultOpts (fun _ => 1) SessionState.init
    [detC, detC] 640 640 10 20 none 0 rfl⟩

/-! ### C4 — a fingerprint is counted exactly once, at creation -/

lemma foldBest_src (sqrtF : ℚ → ℚ) (newFp : Fingerprint)
    (l : List (String × Fingerprint)) :
    ∀ (b : Option (String × Fingerprint × ℚ)) (c : String × Fingerprint × ℚ),
      l.foldl (bestStep sqrtF newFp) b = some c →
      b = some c ∨ ((c.1, c.2.1) ∈ l
        ∧ c.2.2 = calculateSimilarity sqrtF newFp c.2.1 ∧ 1 - c.2.2 ≤ 1/10) := by
  induction l with
  | nil => intro b c h; exact Or.inl h
  | cons e rest ih =>
    intro b c h
    simp only [List.foldl_cons] at h
    rcases ih (bestStep sqrtF newFp b e) c h with h1 | h1
    · by_cases helig : 1 - calculateSimilarity sqrtF newFp e.2 ≤ 1/10
      · cases b with
        | none =>
          have hstep : bestStep sqrtF newFp none e =
              some (e.1, e.2, calculateSimilarity sqrtF newFp e.2) := by
            simp only [bestStep]; rw [if_pos helig]
          rw [hstep, Option.some.injEq] at h1
          subst h1
          exact Or.inr ⟨List.mem_cons_self e rest, rfl, helig⟩
        | some bb =>
          by_cases hgt : calculateSimilarity sqrtF newFp e.2 > bb.2.2
          · have hstep : bestStep sqrtF newFp (some bb) e =
                some (e.1, e.2, calculateSimilarity sqrtF newFp e.2) := by
              simp only [bestStep]; rw [if_pos helig, if_pos hgt]
            rw [hstep, Option.some.injEq] at h1
            subst h1
            exact Or.inr ⟨List.mem_cons_self e rest, rfl, helig⟩
          · have hstep : bestStep sqrtF newFp (some bb) e = some bb := by
              simp only [bestStep]; rw [if_pos helig, if_neg hgt]
            rw [hstep] at h1
            exact Or.inl h1
      · have hstep : bestStep sqrtF newFp b e = b := by
          cases b with
          | none => simp only [bestStep]; rw [if_neg helig]
          | some bb => simp only [bestStep]; rw [if_neg helig]
        rw [hstep] at h1
        exact Or.inl h1
    · exact Or.inr ⟨List.mem_cons_of_mem e h1.1, h1.2⟩

lemma foldBest_mono (sqrtF : ℚ → ℚ) (newFp : Fingerprint)
    (l : List (String × Fingerprint)) :
    ∀ (bb : String × Fingerprint × ℚ),
      ∃ c, l.foldl (bestStep sqrtF newFp) (some bb) = some c ∧ bb.2.2 ≤ c.2.2 := by
  induction l with
  | nil => intro bb; exact ⟨bb, rfl, le_refl _⟩
  | cons e rest ih =>
    intro bb
    simp only [List.foldl_cons]
    by_cases helig : 1 - calculateSimilarity sqrtF newFp e.2 ≤ 1/10
    · by_cases hgt : calculateSimilarity sqrtF newFp e.2 > bb.2.2
      · have hstep : bestStep sqrtF newFp (some bb) e =
            some (e.1, e.2, calculateSimilarity sqrtF newFp e.2) := by
          simp only [bestStep]; rw [if_pos helig, if_pos hgt]
        rw [hstep]
        obtain ⟨c, hc, hle⟩ := ih (e.1, e.2, calculateSimilarity sqrtF newFp e.2)
        exact ⟨c, hc, le_trans (le_of_lt hgt) hle⟩
      · have hstep : bestStep sqrtF newFp (some bb) e = some bb := by
          simp only [bestStep]; rw [if_pos helig, if_neg hgt]
        rw [hstep]
        exact ih bb
    · have hstep : bestStep sqrtF newFp (some bb) e = some bb := by
        simp only [bestStep]; rw [if_neg helig]
      rw [hstep]
      exact ih bb

lemma foldBest_ge (sqrtF : ℚ → ℚ) (newFp : Fingerprint)
    (l : List (String × Fingerprint)) :
    ∀ (b : Option (String × Fingerprint × ℚ)), ∀ e ∈ l,
      1 - calculateSimilarity sqrtF newFp e.2 ≤ 1/10 →
      ∃ c, l.foldl (bestStep sqrtF newFp) b = some c ∧
        calculateSimilarity sqrtF newFp e.2 ≤ c.2.2 := by
  induction l with
  | nil => intro b e he; simp at he
  | cons a rest ih =>
    intro b e he helig
    simp only [List.foldl_cons]
    rcases List.mem_cons.1 he with h1 | h1
    · subst h1
      cases b with
      | none =>
        have hstep : bestStep sqrtF newFp none e =
            some (e.1, e.2, calculateSimilarity sqrtF newFp e.2) := by
          simp only [bestStep]; rw [if_pos helig]
        rw [hstep]
        exact foldBest_mono sqrtF newFp rest _
      | some bb =>
        by_cases hgt : calculateSimilarity sqrtF newFp e.2 > bb.2.2
        · have hstep : bestStep sqrtF newFp (some bb) e =
              some (e.1, e.2, calculateSimilarity sqrtF newFp e.2) := by
            simp only [bestStep]; rw [if_pos helig, if_pos hgt]
          rw [hstep]
          exact foldBest_mono sqrtF newFp rest _
        · have hstep : bestStep sqrtF newFp (some bb) e = some bb := by
            simp only [bestStep]; rw [if_pos helig, if_neg hgt]
          rw [hstep]
          obtain ⟨c, hc, hle⟩ := foldBest_mono sqrtF newFp rest bb
          exact ⟨c, hc, le_trans (not_lt.1 hgt) hle⟩
    · exact ih _ e h1 helig

/-- Invariant carried by the `processDetections` loop: every emitted "new"
fingerprint is counted, first-seen, and carries a generated id. -/
def NewInv (now : ℚ) (l : List Fingerprint) : Prop :=
  ∀ fp ∈ l, fp.counted = true ∧ fp.seenCount = 1 ∧ ∃ rs, fp.id = fingerprintId now rs

lemma processOne_newInv (sqrtF : ℚ → ℚ) (fw fh now : ℚ) (acc : FPAcc)
    (det : Detection) (h : NewInv now acc.newPotholes) :
    NewInv now (processOneDetection sqrtF fw fh now acc det).newPotholes := by
  unfold processOneDetection
  cases hb : findBestMatch sqrtF (calculateFingerprint det fw fh now
      (acc.rnds.headD "")) acc.fingerprints with
  | some b => simp only [hb]; exact h
  | none =>
    simp only [hb]
    intro fp hfp
    rcases List.mem_append.1 hfp with h1 | h1
    · exact h fp h1
    · simp only [List.mem_singleton] at h1
      subst h1
      exact ⟨rfl, rfl, acc.rnds.headD "", rfl⟩

lemma fpFold_newInv (sqrtF : ℚ → ℚ) (fw fh now : ℚ) (dets : List Detection) :
    ∀ acc : FPAcc, NewInv now acc.newPotholes →
      NewInv now (dets.foldl (processOneDetection sqrtF fw fh now) acc).newPotholes := by
  induction dets with
  | nil => intro acc h; exact h
  | cons det rest ih =>
    intro acc h
    exact ih _ (processOne_newInv sqrtF fw fh now acc det h)

lemma fpFind_of_fresh (m : List (String × Fingerprint)) (key : String)
    (h : ∀ e ∈ m, e.1 ≠ key) : fpFind m key = none := by
  induction m with
  | nil => rfl
  | cons e rest ih =>
    unfold fpFind
    rw [if_neg (h e (List.mem_cons_self e rest))]
    exact ih fun x hx => h x (List.mem_cons_of_mem e hx)

/-- C4: (first conjunct) under fresh generated ids, every fingerprint in
`newPotholesToCount` is created in this very call: `counted = true`,
`seenCount = 1`, and its id is absent from the pre-call fingerprint map — so
an id can appear in `newPotholesToCount` only in the call that creates it.
(Second conjunct) a detection that matches claims exactly one existing
fingerprint — the best match: the map is updated in place at that key by
`matchUpdate`, nothing is added to `newPotholesToCount`, and the matched
entry is an eligible (`1 - sim ≤ 0.1`) fingerprint of maximal similarity. -/
theorem fingerprint_counted_once (sqrtF : ℚ → ℚ) (st : FPTrackerState)
    (dets : List Detection) (fw fh now : ℚ) (rnds : List String)
    (hfresh : ∀ rs : String, fpFind st.fingerprints (fingerprintId now rs) = none) :
    (∀ fp ∈ (processDetections sqrtF st dets fw fh now rnds).2.2,
        fp.counted = true ∧ fp.seenCount = 1 ∧ fpFind st.fingerprints fp.id = none)
    ∧ ∀ (acc : FPAcc) (det : Detection) (bid : String) (bfp : Fingerprint) (s : ℚ),
        findBestMatch sqrtF (calculateFingerprint det fw fh now (acc.rnds.headD ""))
            acc.fingerprints = some (bid, bfp, s) →
        (processOneDetection sqrtF fw fh now acc det).newPotholes = acc.newPotholes
        ∧ (processOneDetection sqrtF fw fh now acc det).fingerprints =
            assocUpdate bid (matchUpdate
              (calculateFingerprint det fw fh now (acc.rnds.headD "")) now)
              acc.fingerprints
        ∧ (bid, bfp) ∈ acc.fingerprints
        ∧ s = calculateSimilarity sqrtF
            (calculateFingerprint det fw fh now (acc.rnds.headD "")) bfp
        ∧ 1 - s ≤ 1/10
        ∧ ∀ e ∈ acc.fingerprints,
            1 - calculateSimilarity sqrtF
              (calculateFingerprint det fw fh now (acc.rnds.headD "")) e.2 ≤ 1/10 →
            calculateSimilarity sqrtF
              (calculateFingerprint det fw fh now (acc.rnds.headD "")) e.2 ≤ s := by
  constructor
  · intro fp hfp
    have hinv : NewInv now (processDetections sqrtF st dets fw fh now rnds).2.2 := by
      unfold processDetections
      exact fpFold_newInv sqrtF fw fh now _ _ (by intro x hx; simp at hx)
    obtain ⟨hc, hs, rs, hid⟩ := hinv fp hfp
    exact ⟨hc, hs, hid ▸ hfresh rs⟩
  · intro acc det bid bfp s hbest
    have hsrc := foldBest_src sqrtF _ acc.fingerprints none (bid, bfp, s) hbest
    rcases hsrc with h1 | h1
    · exact absurd h1 (by simp)
    refine ⟨?_, ?_, h1.1, h1.2.1, h1.2.2, ?_⟩
    · simp only [processOneDetection, hbest]
    · simp only [processOneDetection, hbest]
    · intro e he helig
      obtain ⟨c, hc, hle⟩ := foldBest_ge sqrtF _ acc.fingerprints none e he helig
      have hc2 : findBestMatch sqrtF
          (calculateFingerprint det fw fh now (acc.rnds.headD ""))
          acc.fingerprints = some c := hc
      rw [hbest, Option.some.injEq] at hc2
      rw [← hc2] at hle
      exact hle

/-- Concrete inputs for the C4 witness: one high-confidence detection
processed by an empty tracker with one supplied fresh id. -/
def fpWitnessOut : List Fingerprint :=
  (processDetections (fun _ => 0) FPTrackerState.init [detC] 640 640 0 ["r1"]).2.2

/-- Fallback fingerprint for list access in the witness. -/
def defaultFingerprint : Fingerprint := ⟨0, 0, 0, 0, 0, 0, 0, false, ""⟩

/-- C4 witness: the first conjunct evaluated at the concrete call — the
single emitted fingerprint is counted, first-seen, and fresh. -/
theorem fingerprint_counted_once_witness :
    (fpWitnessOut.headD defaultFingerprint).counted = true
    ∧ (fpWitnessOut.headD defaultFingerprint).seenCount = 1
    ∧ fpFind ([] : List (String × Fingerprint))
        (fpWitnessOut.headD defaultFingerprint).id = none :=
  (fingerprint_counted_once (fun _ => 0) FPTrackerState.init [detC] 640 640 0 ["r1"]
      (fun _ => rfl)).1
    (fpWitnessOut.headD defaultFingerprint)
    (by
      show fpWitnessOut.headD defaultFingerprint ∈ fpWitnessOut
      have hne : fpWitnessOut ≠ [] := by
        norm_num [fpWitnessOut, processDetections, processOneDetection,
          FPTrackerState.init, findBestMatch, detC, List.foldl,
          List.filter_cons, decide_eq_true_eq]
      cases hfw : fpWitnessOut with
      | nil => exact absurd hfw hne
      | cons a l => simp [List.headD])

/-! ### C1 — deduplicator TTL suppression across calls

The scenario of the claim: default options, bypass off, the same centered
detection (`detC`, mapping to the cell of (10, 20)) registered at t = 0,
t = 10000, t = 40000 and an arbitrary final time `t`, with no user speed
(`none`, so the effective short TTL is `max 30000 60000`). -/

set_option maxHeartbeats 1000000

lemma dedupCall1_eq (cosDeg : ℚ → ℚ) :
    registerDetections defaultOpts cosDeg SessionState.init [detC] 640 640 10 20 none 0 =
      (⟨[(quantizeCell cosDeg 10 20 12, 0)], [(quantizeCell cosDeg 10 20 12, 0)],
        [⟨quantizeCell cosDeg 10 20 12 ++ ":" ++ toString (0 : ℚ), 10, 20, 0⟩]⟩,
       [⟨quantizeCell cosDeg 10 20 12 ++ ":" ++ toString (0 : ℚ), 10, 20, 0⟩]) := by
  norm_num [registerDetections, registerOne, prunePass, capMap, defaultOpts, detC,
    SessionState.init, isCenterGated, mapFind, mapSet, max_def, List.foldl]

lemma dedupCall2_eq (cosDeg : ℚ → ℚ) :
    registerDetections defaultOpts cosDeg
      ⟨[(quantizeCell cosDeg 10 20 12, 0)], [(quantizeCell cosDeg 10 20 12, 0)],
        [⟨quantizeCell cosDeg 10 20 12 ++ ":" ++ toString (0 : ℚ), 10, 20, 0⟩]⟩
      [detC] 640 640 10 20 none 10000 =
      (⟨[(quantizeCell cosDeg 10 20 12, 0)], [(quantizeCell cosDeg 10 20 12, 0)],
        [⟨quantizeCell cosDeg 10 20 12 ++ ":" ++ toString (0 : ℚ), 10, 20, 0⟩]⟩,
       []) := by
  have hprune : prunePass 30000 10000 [(quantizeCell cosDeg 10 20 12, 0)] =
      [(quantizeCell cosDeg 10 20 12, 0)] := by norm_num [prunePass]
  have hprune2 : prunePass 900000 10000 [(quantizeCell cosDeg 10 20 12, 0)] =
      [(quantizeCell cosDeg 10 20 12, 0)] := by norm_num [prunePass]
  simp only [registerDetections, defaultOpts, hprune, hprune2]
  norm_num [capMap, registerOne, defaultOpts, detC, isCenterGated, mapFind, max_def,
    List.foldl]

lemma dedupCall3_eq (cosDeg : ℚ → ℚ) :
    registerDetections defaultOpts cosDeg
      ⟨[(quantizeCell cosDeg 10 20 12, 0)], [(quantizeCell cosDeg 10 20 12, 0)],
        [⟨quantizeCell cosDeg 10 20 12 ++ ":" ++ toString (0 : ℚ), 10, 20, 0⟩]⟩
      [detC] 640 640 10 20 none 40000 =
      (⟨[], [(quantizeCell cosDeg 10 20 12, 0)],
        [⟨quantizeCell cosDeg 10 20 12 ++ ":" ++ toString (0 : ℚ), 10, 20, 0⟩]⟩,
       []) := by
  have hprune : prunePass 30000 40000 [(quantizeCell cosDeg 10 20 12, 0)] = [] := by
    norm_num [prunePass]
  have hprune2 : prunePass 900000 40000 [(quantizeCell cosDeg 10 20 12, 0)] =
      [(quantizeCell cosDeg 10 20 12, 0)] := by norm_num [prunePass]
  simp only [registerDetections, defaultOpts, hprune, hprune2]
  norm_num [capMap, registerOne, defaultOpts, detC, isCenterGated, mapFind, max_def,
    List.foldl]

lemma dedupCall4_late_eq (cosDeg : ℚ → ℚ) (t : ℚ) (ht : 900000 < t) :
    (registerDetections defaultOpts cosDeg
      ⟨[], [(quantizeCell cosDeg 10 20 12, 0)],
        [⟨quantizeCell cosDeg 10 20 12 ++ ":" ++ toString (0 : ℚ), 10, 20, 0⟩]⟩
      [detC] 640 640 10 20 none t).2 =
      [⟨quantizeCell cosDeg 10 20 12 ++ ":" ++ toString t, 10, 20, t⟩] := by
  have hprune : prunePass 30000 t ([] : TSMap) = [] := by norm_num [prunePass]
  have hprune2 : prunePass 900000 t [(quantizeCell cosDeg 10 20 12, 0)] = [] := by
    simp only [prunePass, List.filter]
    rw [decide_eq_false]
    simp only [sub_zero, gt_iff_lt, not_not]
    exact ht
  simp only [registerDetections, defaultOpts, hprune, hprune2]
  norm_num [capMap, registerOne, defaultOpts, detC, isCenterGated, mapFind, max_def,
    List.foldl]

lemma dedupCall4_early_eq (cosDeg : ℚ → ℚ) (t : ℚ) (ht : ¬ 900000 < t) :
    (registerDetections defaultOpts cosDeg
      ⟨[], [(quantizeCell cosDeg 10 20 12, 0)],
        [⟨quantizeCell cosDeg 10 20 12 ++ ":" ++ toString (0 : ℚ), 10, 20, 0⟩]⟩
      [detC] 640 640 10 20 none t).2 = [] := by
  have hprune : prunePass 30000 t ([] : TSMap) = [] := by norm_num [prunePass]
  have hprune2 : prunePass 900000 t [(quantizeCell cosDeg 10 20 12, 0)] =
      [(quantizeCell cosDeg 10 20 12, 0)] := by
    simp only [prunePass, List.filter]
    rw [decide_eq_true]
    simp only [sub_zero, gt_iff_lt, not_lt]
    exact not_lt.1 ht
  have hle : t - 0 ≤ 900000 := by rw [sub_zero]; exact not_lt.1 ht
  have hle2 : t ≤ 900000 := not_lt.1 ht
  simp only [registerDetections, defaultOpts, hprune, hprune2]
  norm_num [capMap, registerOne, defaultOpts, detC, isCenterGated, mapFind, max_def,
    List.foldl, hle, hle2]

/-- The session state after the first registration of the scenario (t=0). -/
def dedupState1 (cosDeg : ℚ → ℚ) : SessionState :=
  (registerDetections defaultOpts cosDeg SessionState.init [detC] 640 640 10 20 none 0).1

/-- The session state after the second registration (t=10000). -/
def dedupState2 (cosDeg : ℚ → ℚ) : SessionState :=
  (registerDetections defaultOpts cosDeg (dedupState1 cosDeg) [detC] 640 640 10 20 none 10000).1

/-- The session state after the third registration (t=40000). -/
def dedupState3 (cosDeg : ℚ → ℚ) : SessionState :=
  (registerDetections defaultOpts cosDeg (dedupState2 cosDeg) [detC] 640 640 10 20 none 40000).1

/-- C1: with default TTLs and bypass off (speed not supplied), the first call
at t=0 accepts exactly one report for the cell of (10,20); the calls at
t=10000 (inside the short TTL) and t=40000 (past the short TTL but inside
the session TTL 900000) return no new report; and the final call at an
arbitrary time `t` returns a new report for that cell precisely when
`t > 900000`. -/
theorem dedup_ttl_suppression (cosDeg : ℚ → ℚ) (t : ℚ) :
    (registerDetections defaultOpts cosDeg SessionState.init
        [detC] 640 640 10 20 none 0).2 =
      [⟨quantizeCell cosDeg 10 20 12 ++ ":" ++ toString (0 : ℚ), 10, 20, 0⟩]
    ∧ (registerDetections defaultOpts cosDeg (dedupState1 cosDeg)
        [detC] 640 640 10 20 none 10000).2 = []
    ∧ (registerDetections defaultOpts cosDeg (dedupState2 cosDeg)
        [detC] 640 640 10 20 none 40000).2 = []
    ∧ (registerDetections defaultOpts cosDeg (dedupState3 cosDeg)
        [detC] 640 640 10 20 none t).2 =
      (if 900000 < t
        then [⟨quantizeCell cosDeg 10 20 12 ++ ":" ++ toString t, 10, 20, t⟩]
        else []) := by
  have h1 : dedupState1 cosDeg =
      ⟨[(quantizeCell cosDeg 10 20 12, 0)], [(quantizeCell cosDeg 10 20 12, 0)],
        [⟨quantizeCell cosDeg 10 20 12 ++ ":" ++ toString (0 : ℚ), 10, 20, 0⟩]⟩ := by
    rw [dedupState1, dedupCall1_eq]
  have h2 : dedupState2 cosDeg =
      ⟨[(quantizeCell cosDeg 10 20 12, 0)], [(quantizeCell cosDeg 10 20 12, 0)],
        [⟨quantizeCell cosDeg 10 20 12 ++ ":" ++ toString (0 : ℚ), 10, 20, 0⟩]⟩ := by
    rw [dedupState2, h1, dedupCall2_eq]
  have h3 : dedupState3 cosDeg =
      ⟨[], [(quantizeCell cosDeg 10 20 12, 0)],
        [⟨quantizeCell cosDeg 10 20 12 ++ ":" ++ toString (0 : ℚ), 10, 20, 0⟩]⟩ := by
    rw [dedupState3, h2, dedupCall3_eq]
  refine ⟨by rw [dedupCall1_eq], by rw [h1, dedupCall2_eq], by rw [h2, dedupCall3_eq], ?_⟩
  rw [h3]
  by_cases ht : 900000 < t
  · rw [dedupCall4_late_eq cosDeg t ht, if_pos ht]
  · rw [dedupCall4_early_eq cosDeg t ht, if_neg ht]

end TarTrackers
